import Mathlib

/-!
Verification development for the salon-receptionist booking backend.

The Python services are shallowly embedded as executable Lean functions:

* strings are modelled as `List Char` (helpers mirror `str.lower`,
  `str.title`, `str.strip`, `str.split`, `str.replace` and the `in`
  substring test of Python);
* a small backtracking engine mirrors the `re` searches the code makes
  (leftmost match, greedy quantifiers with backtracking, first
  alternative preferred, `\b` word boundaries), enough for the exact
  patterns appearing in the source;
* dictionaries are association lists with first-occurrence lookup,
  `dset` mirroring `d[k] = v` and `dictUpdate` mirroring `d.update(m)`;
* external collaborators (the generation provider, SMTP, the clock and
  the UUID generator) are injected as explicit parameters, since the
  spec places their behaviour out of scope.
-/

set_option maxRecDepth 10000

/-! ### Python string primitives -/

/-- Python `str.lower` (ASCII, as exercised by the sources). -/
def pyLower (s : List Char) : List Char := s.map Char.toLower

/-- Python whitespace class used by `str.strip` / `str.split` / regex `\s`. -/
def pyIsSpace (c : Char) : Bool :=
  c == ' ' || c == '\t' || c == '\n' || c == '\r' || c == '\x0b' || c == '\x0c'

/-- Python `str.strip()`: drop leading and trailing whitespace. -/
def pyStrip (s : List Char) : List Char :=
  ((s.dropWhile pyIsSpace).reverse.dropWhile pyIsSpace).reverse

/-- Python `str.title()`: a cased character following a non-cased one is
uppercased, every other cased character is lowercased. -/
def pyTitleAux : Bool → List Char → List Char
  | _, [] => []
  | prevAlpha, c :: cs =>
    (if c.isAlpha then (if prevAlpha then c.toLower else c.toUpper) else c)
      :: pyTitleAux c.isAlpha cs

/-- Python `str.title()`. -/
def pyTitle (s : List Char) : List Char := pyTitleAux false s

/-- Boolean prefix test on character lists. -/
def isPrefixOfB (needle hay : List Char) : Bool :=
  match needle, hay with
  | [], _ => true
  | x :: xt, y :: yt => x == y && isPrefixOfB xt yt
  | _ :: _, [] => false

/-- Python substring containment `needle in hay`. -/
def containsSub (needle : List Char) : List Char → Bool
  | [] => isPrefixOfB needle []
  | c :: t => isPrefixOfB needle (c :: t) || containsSub needle t

/-- Python `str.split(sep)` for a non-empty separator: non-overlapping,
left to right. `acc` holds the reversed current fragment. Structural
recursion on a fuel that starts at the input length, so the function
reduces inside the kernel; every recursive call shortens the list by at
least one character, hence the fuel-exhausted branch is unreachable. -/
def splitOnAux (sep : List Char) : Nat → List Char → List Char → List (List Char)
  | _, [], acc => [acc.reverse]
  | 0, s, acc => [acc.reverse ++ s]
  | fuel + 1, c :: rest, acc =>
    if isPrefixOfB sep (c :: rest) then
      acc.reverse :: splitOnAux sep fuel (rest.drop (sep.length - 1)) []
    else
      splitOnAux sep fuel rest (c :: acc)

/-- Python `str.split(sep)`. -/
def splitOnSub (sep s : List Char) : List (List Char) :=
  splitOnAux sep s.length s []

/-- Python `str.replace(pat, rep)` for a non-empty pattern, with the same
fuel discipline as `splitOnAux`. -/
def replaceAux (pat rep : List Char) : Nat → List Char → List Char
  | _, [] => []
  | 0, s => s
  | fuel + 1, c :: rest =>
    if isPrefixOfB pat (c :: rest) then
      rep ++ replaceAux pat rep fuel (rest.drop (pat.length - 1))
    else
      c :: replaceAux pat rep fuel rest

/-- Python `str.replace(pat, rep)`. -/
def replaceSub (pat rep s : List Char) : List Char :=
  replaceAux pat rep s.length s

/-- Python `str.split()` (no argument): whitespace-run separated tokens,
empties omitted, with the same fuel discipline as `splitOnAux`. -/
def splitWsAux : Nat → List Char → List (List Char)
  | _, [] => []
  | 0, _ => []
  | fuel + 1, c :: t =>
    if pyIsSpace c then splitWsAux fuel t
    else (c :: t.takeWhile (fun d => !pyIsSpace d))
      :: splitWsAux fuel (t.dropWhile (fun d => !pyIsSpace d))

/-- Python `str.split()`. -/
def splitWsTokens (s : List Char) : List (List Char) :=
  splitWsAux s.length s

/-! ### Dictionaries as association lists (Python `dict`) -/

/-- First-occurrence lookup (Python `d[k]` / `d.get(k)`). -/
def dlookup {α : Type} : List (String × α) → String → Option α
  | [], _ => none
  | (k', v') :: t, k => if k' == k then some v' else dlookup t k

/-- Python `d[k] = v`: replace the binding in place, else append. -/
def dset {α : Type} : List (String × α) → String → α → List (String × α)
  | [], k, v => [(k, v)]
  | (k', v') :: t, k, v =>
    if k' == k then (k, v) :: t else (k', v') :: dset t k v

/-- Python `acc.update(new)`: every key of `new` overwrites (existing keys
keep their position, fresh keys are appended in order). -/
def dictUpdate {α : Type} (acc new : List (String × α)) : List (String × α) :=
  acc.map (fun kv => match dlookup new kv.1 with
    | some v => (kv.1, v)
    | none => kv)
  ++ new.filter (fun kv => (dlookup acc kv.1).isNone)

/-- Accumulated booking fields: slot name to string value. -/
abbrev Metadata := List (String × String)

/-! ### Booking trigger (`LLMService.should_book_appointment`)

Two near-duplicate implementations exist in the repository; both are
embedded. -/

/-- Confirmation phrases of `backend/services/llm_service.py` (line 129). -/
def bookingPhrases : List String :=
  ["confirmed", "scheduled", "booked", "appointment set",
   "i\x27ve scheduled", "i\x27ve booked", "all set",
   "appointment is confirmed", "you\x27re all set",
   "i have you booked", "booking confirmed"]

/-- Confirmation phrases of
`speedchain-assignment/backend/services/llm_service.py` (line 116). -/
def bookingPhrasesSA : List String :=
  ["confirmed", "scheduled", "booked", "appointment set",
   "i\x27ve scheduled", "i\x27ve booked", "all set"]

/-- `any(phrase in response_lower for phrase in booking_phrases)` for the
backend phrase list. -/
def hasBookingPhrase (llmResponse : String) : Bool :=
  bookingPhrases.any (fun p => containsSub p.data (pyLower llmResponse.data))

/-- Same linguistic test with the shorter duplicate phrase list. -/
def hasBookingPhraseSA (llmResponse : String) : Bool :=
  bookingPhrasesSA.any (fun p => containsSub p.data (pyLower llmResponse.data))

/-- The required slots checked by both implementations. -/
def requiredFields : List String :=
  ["customer_name", "service_type", "email", "date", "time"]

/-- `backend/services/llm_service.py` line 117: booking phrase AND every
required field present with a truthy (non-empty) value. -/
def shouldBookAppointment (llmResponse : String) (metadata : Metadata) : Bool :=
  hasBookingPhrase llmResponse &&
    requiredFields.all (fun f => match dlookup metadata f with
      | some v => !(v == "")
      | none => false)

/-- `speedchain-assignment/backend/services/llm_service.py` line 104:
booking phrase AND every required field merely present (`field in
metadata`, no truthiness check). -/
def shouldBookAppointmentSA (llmResponse : String) (metadata : Metadata) : Bool :=
  hasBookingPhraseSA llmResponse &&
    requiredFields.all (fun f => (dlookup metadata f).isSome)

/-! ### A small regex engine for the exact patterns used by the code

Matching mimics the Python `re` module on these patterns: scan start
positions left to right, quantifiers over character classes are greedy
with backtracking (longest repetition tried first), alternatives are
tried left to right, `\b` is a zero-width word boundary. -/

/-- Word character for `\b` (`[A-Za-z0-9_]`). -/
def isWordChar (c : Char) : Bool := c.isAlphanum || c == '_'

/-- Word-ness of an optional boundary character (out of bounds counts as
non-word). -/
def isWordOpt : Option Char → Bool
  | none => false
  | some c => isWordChar c

/-- Regex fragments: a single class character, a greedy bounded repetition
of a class, a word boundary, alternation, concatenation. -/
inductive RE where
  | cls (p : Char → Bool)
  | rep (lo : Nat) (hi : Option Nat) (p : Char → Bool)
  | wb
  | alt (a b : RE)
  | seq (a b : RE)

/-- All ways a fragment can consume a prefix of `s`, in the order the
backtracking engine tries them. Each result carries the last character
consumed so far (for later boundary checks) and the remaining input. -/
def runRE : RE → Option Char → List Char → List (Option Char × List Char)
  | .cls _, _, [] => []
  | .cls p, _, c :: t => if p c then [(some c, t)] else []
  | .rep lo hi p, prev, s =>
    let m0 := (s.takeWhile p).length
    let m := match hi with
      | some h => min m0 h
      | none => m0
    if m < lo then []
    else (List.range (m + 1 - lo)).map (fun j =>
      let i := m - j
      (match i with
        | 0 => prev
        | Nat.succ k => s.get? k, s.drop i))
  | .wb, prev, s =>
    if isWordOpt prev != isWordOpt s.head? then [(prev, s)] else []
  | .alt a b, prev, s => runRE a prev s ++ runRE b prev s
  | .seq a b, prev, s =>
    (runRE a prev s).flatMap (fun pr => runRE b pr.1 pr.2)

/-- Leftmost search: at each start position return the first (most
preferred) match, as the list of matched characters. -/
def searchREAux (r : RE) : Option Char → List Char → Option (List Char)
  | prev, s =>
    match runRE r prev s with
    | (_, rest) :: _ => some (s.take (s.length - rest.length))
    | [] =>
      match s with
      | [] => none
      | c :: t => searchREAux r (some c) t

/-- Python `re.search(r, s)` returning the matched text, also the first
element of `re.findall` for a groupless pattern. -/
def searchRE (r : RE) (s : List Char) : Option (List Char) :=
  searchREAux r none s

/-- Sequence a list of fragments. -/
def seqRE : List RE → RE
  | [] => .wb
  | [r] => r
  | r :: rest => .seq r (seqRE rest)

/-- Class `[A-Za-z0-9._%+-]` (the local part of the strict email regex). -/
def emailLocalCls (c : Char) : Bool :=
  c.isAlphanum || c == '.' || c == '_' || c == '%' || c == '+' || c == '-'

/-- Class `[A-Za-z0-9.-]` (the domain of the strict email regex). -/
def emailDomCls (c : Char) : Bool := c.isAlphanum || c == '.' || c == '-'

/-- Class `[A-Z|a-z]` as literally written in the source pattern (it
includes the pipe character). -/
def emailTldCls (c : Char) : Bool :=
  ('A' ≤ c && c ≤ 'Z') || c == '|' || ('a' ≤ c && c ≤ 'z')

/-- `\b[A-Za-z0-9._%+-]+@[A-Za-z0-9.-]+\.[A-Z|a-z]{2,}\b`
(memory_service.py line 146). -/
def emailRE : RE :=
  seqRE [.wb, .rep 1 none emailLocalCls, .cls (· == '@'),
         .rep 1 none emailDomCls, .cls (· == '.'),
         .rep 2 none emailTldCls, .wb]

/-- Class `[a-z0-9]`. -/
def lowerDigitCls (c : Char) : Bool := ('a' ≤ c && c ≤ 'z') || c.isDigit

/-- Class `[a-z]`. -/
def lowerCls (c : Char) : Bool := 'a' ≤ c && c ≤ 'z'

/-- `([a-z0-9]+)@([a-z0-9]+\.[a-z]{2,})` (memory_service.py line 177);
only `group(0)` is used by the code. -/
def simpleEmailRE : RE :=
  seqRE [.rep 1 none lowerDigitCls, .cls (· == '@'),
         .rep 1 none lowerDigitCls, .cls (· == '.'),
         .rep 2 none lowerCls]

/-- The meridiem alternation `(?:a\.?m\.?|am)` (or `p`/`pm`). -/
def meridiemRE (letter : Char) : RE :=
  .alt (seqRE [.cls (· == letter), .rep 0 (some 1) (· == '.'),
               .cls (· == 'm'), .rep 0 (some 1) (· == '.')])
       (seqRE [.cls (· == letter), .cls (· == 'm')])

/-- `(\d{1,2})\s*(?:a\.?m\.?|am)` resp. the `p` variant
(memory_service.py lines 184-185). -/
def timeAmpmRE (letter : Char) : RE :=
  seqRE [.rep 1 (some 2) Char.isDigit, .rep 0 none pyIsSpace, meridiemRE letter]

/-- `(\d{1,2}):00\s*(am|pm)` (memory_service.py line 186). -/
def timeColonRE : RE :=
  seqRE [.rep 1 (some 2) Char.isDigit, .cls (· == ':'),
         .cls (· == '0'), .cls (· == '0'), .rep 0 none pyIsSpace,
         .alt (seqRE [.cls (· == 'a'), .cls (· == 'm')])
              (seqRE [.cls (· == 'p'), .cls (· == 'm')])]

/-! ### Fallback extraction (`MemoryService._extract_metadata_regex`) -/

/-- The name indicator phrases (memory_service.py line 120). -/
def nameIndicators : List String :=
  ["my name is", "i\x27m", "im", "call me", "this is"]

/-- The name loop (lines 120-128): for the first indicator contained in
the lowered text whose following token has length `> 1`, return that token
title-cased. `parts[1].strip().split()[0]` raises `IndexError` when only
whitespace follows the indicator; the outer `none` models that exception. -/
def extractName : List String → List Char → Option (Option (List Char))
  | [], _ => some none
  | ind :: rest, tl =>
    if containsSub ind.data tl then
      match splitOnSub ind.data tl with
      | _ :: p1 :: _ =>
        match splitWsTokens (pyStrip p1) with
        | [] => none
        | tok :: _ =>
          if tok.length > 1 then some (some (pyTitle tok))
          else extractName rest tl
      | _ => extractName rest tl
    else extractName rest tl

/-- Service vocabulary (line 131). -/
def serviceVocab : List String :=
  ["haircut", "coloring", "color", "styling", "spa", "treatment"]

/-- Stylist vocabulary (line 138). -/
def stylistVocab : List String := ["riya", "maya", "sarah", "alex"]

/-- Date vocabulary (line 199). -/
def dateVocab : List String :=
  ["tomorrow", "today", "monday", "tuesday", "wednesday", "thursday",
   "friday", "saturday"]

/-- First vocabulary word contained in the lowered text (the break-on-first
loops for services, stylists and dates). -/
def firstContained : List String → List Char → Option (List Char)
  | [], _ => none
  | v :: rest, tl =>
    if containsSub v.data tl then some v.data else firstContained rest tl

/-- Email keyword list (line 153). -/
def emailKeywords : List String :=
  ["email is", "email id is", "email address is", "my email", "email:",
   "mail is"]

/-- Keyword isolation (lines 156-162): take the part after the first
contained keyword, strip it, and cut it at the first period, comma or
occurrence of the letters `and`. -/
def isolateEmailPart : List String → List Char → List Char
  | [], ep => ep
  | kw :: rest, ep =>
    if containsSub kw.data ep then
      match splitOnSub kw.data ep with
      | _ :: p1 :: _ =>
        let a := pyStrip p1
        let b := (splitOnSub ".".data a).headD []
        let c := (splitOnSub ",".data b).headD []
        let d := (splitOnSub "and".data c).headD []
        pyStrip d
      | _ => isolateEmailPart rest ep
    else isolateEmailPart rest ep

/-- Spoken-form substitutions (lines 165-169). -/
def emailSubstitutions (ep : List Char) : List Char :=
  replaceSub " by ".data "".data
    (replaceSub " dot ".data ".".data
      (replaceSub " at ".data "@".data
        (replaceSub "at rate".data "@".data
          (replaceSub "at the rate".data "@".data ep))))

/-- The email branch (lines 144-180): strict pattern on the original text;
otherwise keyword isolation and spoken-form substitutions on the lowered
text, re-matched strictly and then loosely. -/
def extractEmail (text tl : List Char) : Option (List Char) :=
  match searchRE emailRE text with
  | some m => some m
  | none =>
    let ep := emailSubstitutions (isolateEmailPart emailKeywords tl)
    match searchRE emailRE ep with
    | some m => some m
    | none => searchRE simpleEmailRE ep

/-- The time branch (lines 182-197): three patterns tried in order; the
captured hour digits are the leading digits of the match, the third
pattern upper-cases its captured meridiem (the last two characters). -/
def extractTime (tl : List Char) : Option (List Char) :=
  match searchRE (timeAmpmRE 'a') tl with
  | some m => some (m.takeWhile Char.isDigit ++ ":00 AM".data)
  | none =>
    match searchRE (timeAmpmRE 'p') tl with
    | some m => some (m.takeWhile Char.isDigit ++ ":00 PM".data)
    | none =>
      match searchRE timeColonRE tl with
      | some m =>
        some (m.takeWhile Char.isDigit ++ ":00 ".data
          ++ (m.drop (m.length - 2)).map Char.toUpper)
      | none => none

/-- Optional binding helper: a slot contributes one dict entry when its
branch produced a value. -/
def slotEntry (k : String) : Option (List Char) → Metadata
  | some v => [(k, String.mk v)]
  | none => []

/-- `MemoryService._extract_metadata_regex` (lines 109-205). The result
dict lists the slots in the insertion order of the source; `none` models
the `IndexError` the name branch can raise. -/
def extractMetadataRegex (text : List Char) : Option Metadata :=
  let tl := pyLower text
  match extractName nameIndicators tl with
  | none => none
  | some nameRes =>
    some (slotEntry "customer_name" nameRes
      ++ slotEntry "service_type" ((firstContained serviceVocab tl).map pyTitle)
      ++ slotEntry "preferred_stylist" ((firstContained stylistVocab tl).map pyTitle)
      ++ slotEntry "email" (extractEmail text tl)
      ++ slotEntry "time" (extractTime tl)
      ++ slotEntry "date" ((firstContained dateVocab tl).map pyTitle))

/-! ### Conversation store (`MemoryService`)

Timestamps are kept abstract (dropped): the spec places real time out of
scope and no claim mentions them. File persistence (`_save_conversations`)
is the identity on the in-memory state it serializes. -/

/-- One stored message (role, content, per-message metadata). -/
structure Message where
  role : String
  content : String
  meta : Metadata
deriving DecidableEq

/-- One per-user conversation record: message log plus accumulated
metadata. -/
structure Conversation where
  messages : List Message
  metadata : Metadata
deriving DecidableEq

/-- `MemoryService.conversations`: user id to conversation record. -/
abbrev ConvStore := List (String × Conversation)

/-- `MemoryService.add_message` (lines 41-64): create the record if
absent, append the message, and merge the per-message metadata into the
accumulated map when the argument dict is truthy (non-empty). -/
def addMessage (convs : ConvStore) (user role content : String)
    (meta : Metadata) : ConvStore :=
  let convs1 :=
    if (dlookup convs user).isSome then convs
    else dset convs user ⟨[], []⟩
  match dlookup convs1 user with
  | none => convs1
  | some c =>
    let c1 : Conversation := ⟨c.messages ++ [⟨role, content, meta⟩], c.metadata⟩
    let c2 := if meta == [] then c1 else
      { c1 with metadata := dictUpdate c1.metadata meta }
    dset convs1 user c2

/-- `MemoryService.get_conversation_history` (lines 66-70). -/
def getConversationHistory (convs : ConvStore) (user : String) : List Message :=
  ((dlookup convs user).map Conversation.messages).getD []

/-- The metadata merge performed at the end of `extract_metadata`
(lines 102-105): if the session exists, `dict.update` the accumulated map
with the newly extracted fields; unknown sessions are left unchanged. -/
def mergeMetadata (convs : ConvStore) (user : String) (new : Metadata) :
    ConvStore :=
  match dlookup convs user with
  | none => convs
  | some c => dset convs user { c with metadata := dictUpdate c.metadata new }

/-- The context window built for the generator (lines 82-88): the last
five stored messages (all of them when at most five), joined by spaces,
followed by the current utterance. -/
def contextText (convs : ConvStore) (user text : String) : String :=
  let h := getConversationHistory convs user
  let ctx := if h.length > 5 then h.drop (h.length - 5) else h
  String.intercalate " " (ctx.map Message.content) ++ " " ++ text

/-- Outcome of one call to the external generation provider for
extraction: a successful call whose parsed and cleaned field map is
`fields`, or a provider/parse failure (a raised exception). The provider
itself is out of scope per the spec. -/
inductive GenResult where
  | ok (fields : Metadata)
  | fail
deriving DecidableEq

/-- `LLMService.extract_metadata_with_llm` (lines 154-302): the whole
body sits in one `try`; a provider or parse failure is caught by the
`except` at lines 300-302, which returns the EMPTY dict instead of
raising. The function therefore never raises. -/
def extractMetadataWithLLM : GenResult → Metadata
  | .ok m => m
  | .fail => []

/-- `MemoryService.extract_metadata` (lines 72-107). `gen` is the
injected LLM service viewed as a map from the submitted context text to a
call outcome; `none` means `self.llm_service` was never set. Because
`extractMetadataWithLLM` is total, the `except` fallback of lines 94-96
is unreachable when a generator is present; without a generator the regex
path runs unprotected, so its `IndexError` (outer `none`) propagates.
Returns the extracted map and the updated store. -/
def extractMetadata (gen : Option (String → GenResult)) (convs : ConvStore)
    (user text : String) : Option (Metadata × ConvStore) :=
  match gen with
  | some g =>
    let md := extractMetadataWithLLM (g (contextText convs user text))
    some (md, mergeMetadata convs user md)
  | none =>
    match extractMetadataRegex text.data with
    | none => none
    | some md => some (md, mergeMetadata convs user md)

/-! ### Appointment service and booking endpoint

`AppointmentService.schedule_appointment`
(`speedchain-assignment/backend/services/appointment_service.py`,
lines 38-64). The UUID and the creation timestamp are injected (`uuid`,
`now`), SMTP credentials and the SMTP call outcome are injected
(`creds`, `smtpOk`); file persistence is the identity on the in-memory
dict it serializes. -/

/-- The persisted appointment record (lines 45-57). -/
structure Appointment where
  id : String
  customer_name : String
  service_type : String
  stylist : String
  date : String
  time : String
  email : String
  phone : String
  status : String
  created_at : String
  meeting_link : String
deriving DecidableEq

/-- `AppointmentService.appointments`: id to record. -/
abbrev AppStore := List (String × Appointment)

/-- What `_send_confirmation_email` did (it prints, returns `None`, and
catches every exception, so the caller observes no failure). -/
inductive EmailOutcome where
  | sent
  | notConfigured
  | errorLogged
deriving DecidableEq

/-- `AppointmentService._send_confirmation_email` (lines 66-112): builds
the message from the record, sends only when both credentials are
configured, and swallows any SMTP exception (lines 111-112). Total: it
never raises to the caller. -/
def sendConfirmationEmail (creds : Option (String × String))
    (smtpOk : Bool) (_appt : Appointment) : EmailOutcome :=
  match creds with
  | none => .notConfigured
  | some _ => if smtpOk then .sent else .errorLogged

/-- The dict returned at line 64. -/
structure BookResult where
  appointment_id : String
  status : String
deriving DecidableEq

/-- `AppointmentService.schedule_appointment` (lines 38-64): build the
record with status `"confirmed"` and a meeting link derived from the
first eight characters of the fresh id, store it, persist, then attempt
the confirmation email, and return id plus the literal status
`"scheduled"`. -/
def scheduleAppointment (uuid now : String)
    (customer_name service_type stylist date time email phone : String)
    (creds : Option (String × String)) (smtpOk : Bool) (st : AppStore) :
    BookResult × AppStore × EmailOutcome :=
  let appt : Appointment :=
    { id := uuid, customer_name := customer_name,
      service_type := service_type, stylist := stylist, date := date,
      time := time, email := email, phone := phone, status := "confirmed",
      created_at := now,
      meeting_link := "https://meet.google.com/demo-" ++ uuid.take 8 }
  let st1 := dset st uuid appt
  let emailOutcome := sendConfirmationEmail creds smtpOk appt
  (⟨uuid, "scheduled"⟩, st1, emailOutcome)

/-- Response of the REST booking endpoint: success body, or the 422 the
request model produces before the handler runs. -/
inductive BookResponse where
  | ok (r : BookResult)
  | validationError
deriving DecidableEq

/-- The `AppointmentRequest` pydantic model (`backend/main.py`
lines 71-78): six required string fields, `phone` defaulting to the
empty string. Binding a field map missing a required field fails
validation before the endpoint handler is entered. -/
def requestValid (fields : Metadata) : Bool :=
  (dlookup fields "customer_name").isSome &&
  (dlookup fields "service_type").isSome &&
  (dlookup fields "stylist").isSome &&
  (dlookup fields "date").isSome &&
  (dlookup fields "time").isSome &&
  (dlookup fields "email").isSome

/-- The `/schedule-appointment` endpoint (`backend/main.py`
lines 262-278) composed with request-model validation: on a valid
request, call `schedule_appointment` with the bound fields; otherwise a
422 validation error is returned and the service state is untouched. -/
def scheduleEndpoint (uuid now : String) (creds : Option (String × String))
    (smtpOk : Bool) (fields : Metadata) (st : AppStore) :
    BookResponse × AppStore :=
  if requestValid fields then
    let out := scheduleAppointment uuid now
      ((dlookup fields "customer_name").getD "")
      ((dlookup fields "service_type").getD "")
      ((dlookup fields "stylist").getD "")
      ((dlookup fields "date").getD "")
      ((dlookup fields "time").getD "")
      ((dlookup fields "email").getD "")
      ((dlookup fields "phone").getD "") creds smtpOk st
    (.ok out.1, out.2.1)
  else
    (.validationError, st)

/-! ### Dictionary lemmas -/

theorem dlookup_append {α : Type} (l1 l2 : List (String × α)) (k : String) :
    dlookup (l1 ++ l2) k =
      match dlookup l1 k with
      | some v => some v
      | none => dlookup l2 k := by
  induction l1 with
  | nil => simp [dlookup]
  | cons h t ih =>
    obtain ⟨k0, v0⟩ := h
    by_cases hk : (k0 == k) = true
    · simp [dlookup, hk]
    · simp only [List.cons_append, dlookup, Bool.not_eq_true] at *
      simp [hk, ih]

theorem dlookup_mapUpd {α : Type} (l new : List (String × α)) (k : String) :
    dlookup (l.map (fun kv => match dlookup new kv.1 with
      | some v => (kv.1, v)
      | none => kv)) k =
      match dlookup l k with
      | some v => some ((dlookup new k).getD v)
      | none => none := by
  induction l with
  | nil => simp [dlookup]
  | cons h t ih =>
    obtain ⟨k0, v0⟩ := h
    by_cases hk : (k0 == k) = true
    · have hk' : k0 = k := by simpa using hk
      subst hk'
      cases h0 : dlookup new k0 <;> simp [dlookup, h0]
    · have hk0 : (k0 == k) = false := by simpa using hk
      cases h0 : dlookup new k0 <;> simp [dlookup, h0, hk0, ih]

theorem dlookup_filter_key {α : Type} (l : List (String × α))
    (p : String × α → Bool) (k : String) (hp : ∀ v, p (k, v) = true) :
    dlookup (l.filter p) k = dlookup l k := by
  induction l with
  | nil => simp
  | cons h t ih =>
    obtain ⟨k0, v0⟩ := h
    by_cases hk : (k0 == k) = true
    · have hk' : k0 = k := by simpa using hk
      subst hk'
      simp [List.filter, hp v0, dlookup]
    · cases h0 : p (k0, v0) <;> simp [List.filter, h0, dlookup, hk, ih]

theorem dlookup_dictUpdate {α : Type} (acc new : List (String × α)) (k : String) :
    dlookup (dictUpdate acc new) k =
      match dlookup acc k with
      | some v => some ((dlookup new k).getD v)
      | none => dlookup new k := by
  unfold dictUpdate
  rw [dlookup_append, dlookup_mapUpd]
  cases h : dlookup acc k with
  | some v => simp
  | none =>
    simp only
    exact dlookup_filter_key new _ k (fun v => by simp [h])

theorem dlookup_dictUpdate_none {α : Type} (acc new : List (String × α))
    (k : String) (h : dlookup new k = none) :
    dlookup (dictUpdate acc new) k = dlookup acc k := by
  rw [dlookup_dictUpdate]
  cases h' : dlookup acc k <;> simp [h]

theorem dlookup_dictUpdate_some {α : Type} (acc new : List (String × α))
    (k : String) (v : α) (h : dlookup new k = some v) :
    dlookup (dictUpdate acc new) k = some v := by
  rw [dlookup_dictUpdate]
  cases h' : dlookup acc k <;> simp [h]

theorem dlookup_dset_self {α : Type} (l : List (String × α)) (k : String) (v : α) :
    dlookup (dset l k v) k = some v := by
  induction l with
  | nil => simp [dset, dlookup]
  | cons h t ih =>
    obtain ⟨k0, v0⟩ := h
    by_cases hk : (k0 == k) = true
    · simp [dset, hk, dlookup]
    · simp [dset, hk, dlookup, ih]

theorem dlookup_dset_ne {α : Type} (l : List (String × α)) (k : String) (v : α)
    (k' : String) (h : k' ≠ k) :
    dlookup (dset l k v) k' = dlookup l k' := by
  have hkk : (k == k') = false := by
    rw [beq_eq_false_iff_ne]
    exact fun e => h e.symm
  induction l with
  | nil => simp [dset, dlookup, hkk]
  | cons hd t ih =>
    obtain ⟨k0, v0⟩ := hd
    by_cases hk : (k0 == k) = true
    · have hk' : k0 = k := by simpa using hk
      subst hk'
      simp [dset, dlookup, hkk]
    · simp [dset, hk, dlookup, ih]

theorem dset_fresh {α : Type} (l : List (String × α)) (k : String) (v : α)
    (h : dlookup l k = none) :
    dset l k v = l ++ [(k, v)] := by
  induction l with
  | nil => simp [dset]
  | cons hd t ih =>
    obtain ⟨k0, v0⟩ := hd
    by_cases hk : (k0 == k) = true
    · simp [dlookup, hk] at h
    · simp only [dlookup, hk, if_false] at h
      simp [dset, hk, ih h]

/-! ### Substring lemmas -/

theorem isPrefixOfB_iff (a b : List Char) : isPrefixOfB a b = true ↔ a <+: b := by
  induction a generalizing b with
  | nil => simp [isPrefixOfB]
  | cons c as ih =>
    cases b with
    | nil => simp [isPrefixOfB]
    | cons d bs =>
      simp only [isPrefixOfB, Bool.and_eq_true, beq_iff_eq, ih,
        List.cons_prefix_cons]

theorem containsSub_iff (a b : List Char) : containsSub a b = true ↔ a <:+: b := by
  induction b with
  | nil =>
    simp [containsSub, isPrefixOfB_iff]
  | cons c t ih =>
    simp [containsSub, isPrefixOfB_iff, ih, List.infix_cons_iff]

theorem containsSub_trans {a b c : List Char} (h1 : containsSub a b = true)
    (h2 : containsSub b c = true) : containsSub a c = true :=
  (containsSub_iff a c).mpr
    (((containsSub_iff a b).mp h1).trans ((containsSub_iff b c).mp h2))

/-! ### Booking-trigger lemmas -/

theorem truthyCheck_iff (o : Option String) :
    (match o with
      | some v => !(v == "")
      | none => false) = true ↔ ∃ v, o = some v ∧ v ≠ "" := by
  cases o <;> simp

/-- The four phrases the backend list adds over the duplicate each contain
a phrase of the shorter list, so the linguistic tests coincide. -/
theorem hasBookingPhrase_eq_SA (r : String) :
    hasBookingPhrase r = hasBookingPhraseSA r := by
  rw [Bool.eq_iff_iff]
  simp only [hasBookingPhrase, hasBookingPhraseSA, List.any_eq_true]
  constructor
  · rintro ⟨p, hp, hc⟩
    by_cases hmem : p ∈ bookingPhrasesSA
    · exact ⟨p, hmem, hc⟩
    · have hextra : p = "appointment is confirmed" ∨
          p = "you\x27re all set" ∨ p = "i have you booked" ∨
          p = "booking confirmed" := by
        simp only [bookingPhrases, List.mem_cons, List.not_mem_nil,
          or_false] at hp
        simp only [bookingPhrasesSA, List.mem_cons, List.not_mem_nil,
          or_false] at hmem
        tauto
      rcases hextra with rfl | rfl | rfl | rfl
      · exact ⟨"confirmed", by simp [bookingPhrasesSA],
          containsSub_trans (by decide) hc⟩
      · exact ⟨"all set", by simp [bookingPhrasesSA],
          containsSub_trans (by decide) hc⟩
      · exact ⟨"booked", by simp [bookingPhrasesSA],
          containsSub_trans (by decide) hc⟩
      · exact ⟨"confirmed", by simp [bookingPhrasesSA],
          containsSub_trans (by decide) hc⟩
  · rintro ⟨p, hp, hc⟩
    refine ⟨p, ?_, hc⟩
    simp only [bookingPhrases, bookingPhrasesSA, List.mem_cons,
      List.not_mem_nil, or_false] at hp ⊢
    tauto

/-! ### Claim theorems -/

/-- C1: the backend booking trigger returns true if and only if the reply
contains a phrase of the fixed confirmation set (case-insensitively) and
every one of the five required slots is present with a non-empty value;
setting `preferred_stylist` or `phone` to any values never changes the
result. Either conjunct failing alone therefore makes the result false. -/
theorem shouldBook_iff_phrase_and_complete (r : String) (md : Metadata) :
    (shouldBookAppointment r md = true ↔
      (hasBookingPhrase r = true ∧
        ∀ f ∈ requiredFields, ∃ v, dlookup md f = some v ∧ v ≠ "")) ∧
    (∀ s p, shouldBookAppointment r
        (dictUpdate md [("preferred_stylist", s), ("phone", p)])
      = shouldBookAppointment r md) := by
  constructor
  · simp only [shouldBookAppointment, Bool.and_eq_true, List.all_eq_true,
      truthyCheck_iff]
  · intro s p
    have h1 : ∀ f ∈ requiredFields,
        dlookup (dictUpdate md [("preferred_stylist", s), ("phone", p)]) f
          = dlookup md f := by
      intro f hf
      simp only [requiredFields, List.mem_cons, List.not_mem_nil,
        or_false] at hf
      rcases hf with rfl | rfl | rfl | rfl | rfl <;>
        exact dlookup_dictUpdate_none _ _ _ (by simp [dlookup])
    simp only [shouldBookAppointment, requiredFields, List.all_cons,
      List.all_nil]
    rw [h1 "customer_name" (by simp [requiredFields]),
        h1 "service_type" (by simp [requiredFields]),
        h1 "email" (by simp [requiredFields]),
        h1 "date" (by simp [requiredFields]),
        h1 "time" (by simp [requiredFields])]

/-- C1 witness: on the spec example reply and a complete field map the
trigger fires, via the main theorem. -/
theorem shouldBook_iff_witness :
    shouldBookAppointment "You\x27re all set, Jane!"
      [("customer_name", "Jane Doe"), ("service_type", "Haircut"),
       ("email", "jane@x.com"), ("date", "Monday"),
       ("time", "10:00 AM")] = true :=
  ((shouldBook_iff_phrase_and_complete "You\x27re all set, Jane!"
      [("customer_name", "Jane Doe"), ("service_type", "Haircut"),
       ("email", "jane@x.com"), ("date", "Monday"),
       ("time", "10:00 AM")]).1).mpr (by decide)

/-- C10 counterexample: on the reply "confirmed" and a field map whose
`email` key is present but empty, the backend implementation returns
false while the duplicate returns true, so the two implementations are
not extensionally equal. -/
theorem shouldBook_two_versions_differ :
    shouldBookAppointment "confirmed"
      [("customer_name", "Jane"), ("service_type", "Haircut"),
       ("email", ""), ("date", "Monday"), ("time", "10:00 AM")] = false ∧
    shouldBookAppointmentSA "confirmed"
      [("customer_name", "Jane"), ("service_type", "Haircut"),
       ("email", ""), ("date", "Monday"), ("time", "10:00 AM")] = true := by
  decide

/-- C10 amended: the backend implementation implies the duplicate one
(their phrase tests coincide), and on every metadata map in which each
present required key holds a non-empty value the two agree; they differ
only when a required key is present with an empty value. -/
theorem shouldBook_two_versions_agree (r : String) (md : Metadata) :
    (shouldBookAppointment r md = true → shouldBookAppointmentSA r md = true) ∧
    ((∀ f ∈ requiredFields, ∀ v, dlookup md f = some v → v ≠ "") →
      shouldBookAppointment r md = shouldBookAppointmentSA r md) := by
  have hfield : ∀ (o : Option String),
      (match o with
        | some v => !(v == "")
        | none => false) = true → o.isSome = true := by
    intro o h
    cases o <;> simp_all
  constructor
  · intro h
    simp only [shouldBookAppointment, Bool.and_eq_true, List.all_eq_true] at h
    simp only [shouldBookAppointmentSA, Bool.and_eq_true, List.all_eq_true,
      ← hasBookingPhrase_eq_SA]
    exact ⟨h.1, fun f hf => hfield _ (h.2 f hf)⟩
  · intro hne
    rw [Bool.eq_iff_iff]
    simp only [shouldBookAppointment, shouldBookAppointmentSA,
      Bool.and_eq_true, List.all_eq_true, ← hasBookingPhrase_eq_SA]
    constructor
    · rintro ⟨hp, hall⟩
      exact ⟨hp, fun f hf => hfield _ (hall f hf)⟩
    · rintro ⟨hp, hall⟩
      refine ⟨hp, fun f hf => ?_⟩
      have := hall f hf
      cases ho : dlookup md f with
      | none => simp [ho] at this
      | some v =>
        have hv : v ≠ "" := hne f hf v ho
        simp [hv]

/-- C10 witness: on a map with all required values non-empty the two
implementations agree, via the amended theorem. -/
theorem shouldBook_two_versions_agree_witness :
    shouldBookAppointment "confirmed"
      [("customer_name", "Jane"), ("service_type", "Haircut"),
       ("email", "jane@x.com"), ("date", "Monday"), ("time", "10:00 AM")]
    = shouldBookAppointmentSA "confirmed"
      [("customer_name", "Jane"), ("service_type", "Haircut"),
       ("email", "jane@x.com"), ("date", "Monday"), ("time", "10:00 AM")] :=
  (shouldBook_two_versions_agree "confirmed"
      [("customer_name", "Jane"), ("service_type", "Haircut"),
       ("email", "jane@x.com"), ("date", "Monday"),
       ("time", "10:00 AM")]).2 (by decide)

/-- C2 counterexample: the merge is a plain `dict.update`, so a key
present in the new extraction with an EMPTY value overwrites — here the
accumulated non-empty email is cleared to the empty string instead of
being left intact as the claim states. -/
theorem merge_clears_on_empty_value :
    dlookup (mergeMetadata
        [("u", (⟨[], [("email", "a@b.com")]⟩ : Conversation))]
        "u" [("email", "")]) "u"
      = some (⟨[], [("email", "")]⟩ : Conversation) ∧
    ("" : String) ≠ "a@b.com" := by
  decide

/-- C2 amended: the merge leaves unknown sessions unchanged; on an
existing session it performs `dict.update` of the accumulated map with
the new fields: a key absent from `new_fields` keeps its previously
accumulated value, and a key present in `new_fields` takes the new value
even when that value is empty. -/
theorem merge_is_dict_update (convs : ConvStore) (user : String)
    (new : Metadata) :
    (dlookup convs user = none → mergeMetadata convs user new = convs) ∧
    (∀ c, dlookup convs user = some c →
      dlookup (mergeMetadata convs user new) user
        = some ⟨c.messages, dictUpdate c.metadata new⟩ ∧
      (∀ k, dlookup new k = none →
        dlookup (dictUpdate c.metadata new) k = dlookup c.metadata k) ∧
      (∀ k v, dlookup new k = some v →
        dlookup (dictUpdate c.metadata new) k = some v)) := by
  constructor
  · intro h
    simp [mergeMetadata, h]
  · intro c hc
    refine ⟨?_, fun k hk => dlookup_dictUpdate_none _ _ _ hk,
      fun k v hv => dlookup_dictUpdate_some _ _ _ _ hv⟩
    simp [mergeMetadata, hc, dlookup_dset_self]

/-- C2 witness: a concrete merge on an existing session keeps the
untouched `date` slot and overwrites nothing else, via the amended
theorem. -/
theorem merge_is_dict_update_witness :
    dlookup (mergeMetadata
        [("u", (⟨[], [("date", "Monday")]⟩ : Conversation))]
        "u" [("time", "10:00 AM")]) "u"
      = some ⟨[], dictUpdate [("date", "Monday")] [("time", "10:00 AM")]⟩ ∧
    dlookup (dictUpdate [("date", "Monday")] [("time", "10:00 AM")]) "date"
      = some "Monday" :=
  have h := (merge_is_dict_update
    [("u", (⟨[], [("date", "Monday")]⟩ : Conversation))]
    "u" [("time", "10:00 AM")]).2 ⟨[], [("date", "Monday")]⟩ rfl
  ⟨h.1, h.2.1 "date" rfl⟩

/-- C3: submitting a field set that misses any of the five required slots
to the booking endpoint fails request validation (a 422, the handler is
never entered) and leaves the appointment store unchanged: no partial
record is ever persisted. -/
theorem booking_rejects_missing_slot (uuid now : String)
    (creds : Option (String × String)) (smtpOk : Bool)
    (fields : Metadata) (st : AppStore)
    (h : ∃ f ∈ requiredFields, dlookup fields f = none) :
    scheduleEndpoint uuid now creds smtpOk fields st
      = (.validationError, st) := by
  obtain ⟨f, hf, hnone⟩ := h
  simp only [requiredFields, List.mem_cons, List.not_mem_nil,
    or_false] at hf
  have hvalid : requestValid fields = false := by
    rcases hf with rfl | rfl | rfl | rfl | rfl <;>
      simp [requestValid, hnone]
  simp [scheduleEndpoint, hvalid]

/-- C3 witness: a concrete field set missing `email` is rejected with a
validation error and an empty store stays empty, via the main theorem. -/
theorem booking_rejects_missing_slot_witness :
    scheduleEndpoint "id-1" "2026-02-03T10:00:00" none true
      [("customer_name", "Jane"), ("service_type", "Haircut"),
       ("stylist", "Riya"), ("date", "Monday"), ("time", "10:00 AM")] []
      = (.validationError, []) :=
  booking_rejects_missing_slot "id-1" "2026-02-03T10:00:00" none true
    [("customer_name", "Jane"), ("service_type", "Haircut"),
     ("stylist", "Riya"), ("date", "Monday"), ("time", "10:00 AM")] []
    (by decide)

/-- C5 counterexample: a successful booking persists the record with
status "confirmed" yet returns the literal status "scheduled", which is
not the persisted record status the claim promises. -/
theorem booking_returns_scheduled_not_record_status :
    (scheduleAppointment "abcd1234efgh" "2026-02-03" "Jane" "Haircut"
        "Riya" "Monday" "10:00 AM" "jane@x.com" "" none true []).1.status
      = "scheduled" ∧
    (dlookup (scheduleAppointment "abcd1234efgh" "2026-02-03" "Jane"
        "Haircut" "Riya" "Monday" "10:00 AM" "jane@x.com" "" none true
        []).2.1 "abcd1234efgh").map Appointment.status
      = some "confirmed" ∧
    ("scheduled" : String) ≠ "confirmed" := by
  decide

/-- C5 amended: with a fresh id, a successful booking persists exactly
one new AppointmentRecord, whose status field is "confirmed" and whose
meeting link is derived from the first eight characters of the id, leaves
every other stored record unchanged, and returns that same id together
with the LITERAL status string "scheduled" (not the record status). -/
theorem booking_persists_confirmed_record (uuid now cn stp sty d t e p : String)
    (creds : Option (String × String)) (smtpOk : Bool) (st : AppStore)
    (h : dlookup st uuid = none) :
    (scheduleAppointment uuid now cn stp sty d t e p creds smtpOk st).1
      = ⟨uuid, "scheduled"⟩ ∧
    dlookup (scheduleAppointment uuid now cn stp sty d t e p creds smtpOk
        st).2.1 uuid
      = some ⟨uuid, cn, stp, sty, d, t, e, p, "confirmed", now,
          "https://meet.google.com/demo-" ++ uuid.take 8⟩ ∧
    (scheduleAppointment uuid now cn stp sty d t e p creds smtpOk
        st).2.1.length = st.length + 1 ∧
    (∀ k, k ≠ uuid →
      dlookup (scheduleAppointment uuid now cn stp sty d t e p creds smtpOk
        st).2.1 k = dlookup st k) := by
  refine ⟨rfl, dlookup_dset_self st uuid _, ?_, fun k hk =>
    dlookup_dset_ne st uuid _ k hk⟩
  show (dset st uuid _).length = st.length + 1
  rw [dset_fresh st uuid _ h]
  simp

/-- C5 witness: a concrete booking on the empty store, via the amended
theorem; the returned status is "scheduled" while the stored one is
"confirmed". -/
theorem booking_persists_confirmed_record_witness :
    (scheduleAppointment "abcd1234efgh" "2026-02-03" "Jane" "Haircut"
        "Riya" "Monday" "10:00 AM" "jane@x.com" "" none true []).1
      = ⟨"abcd1234efgh", "scheduled"⟩ ∧
    dlookup (scheduleAppointment "abcd1234efgh" "2026-02-03" "Jane"
        "Haircut" "Riya" "Monday" "10:00 AM" "jane@x.com" "" none true
        []).2.1 "abcd1234efgh"
      = some ⟨"abcd1234efgh", "Jane", "Haircut", "Riya", "Monday",
          "10:00 AM", "jane@x.com", "", "confirmed", "2026-02-03",
          "https://meet.google.com/demo-abcd1234"⟩ ∧
    (scheduleAppointment "abcd1234efgh" "2026-02-03" "Jane" "Haircut"
        "Riya" "Monday" "10:00 AM" "jane@x.com" "" none true
        []).2.1.length = 0 + 1 ∧
    (∀ k, k ≠ "abcd1234efgh" →
      dlookup (scheduleAppointment "abcd1234efgh" "2026-02-03" "Jane"
        "Haircut" "Riya" "Monday" "10:00 AM" "jane@x.com" "" none true
        []).2.1 k = dlookup ([] : AppStore) k) :=
  booking_persists_confirmed_record "abcd1234efgh" "2026-02-03" "Jane"
    "Haircut" "Riya" "Monday" "10:00 AM" "jane@x.com" "" none true [] rfl

/-- C6: a failing confirmation email does not undo the booking. The SMTP
exception is swallowed inside `_send_confirmation_email` (outcome merely
logged), the store after a failed send is identical to the store after a
successful one and contains the record, and the returned result is the
normal success value regardless. -/
theorem booking_survives_email_failure (uuid now cn stp sty d t e p : String)
    (cr : String × String) (st : AppStore) :
    (scheduleAppointment uuid now cn stp sty d t e p (some cr) false
        st).2.2 = .errorLogged ∧
    (scheduleAppointment uuid now cn stp sty d t e p (some cr) false
        st).2.1
      = (scheduleAppointment uuid now cn stp sty d t e p (some cr) true
        st).2.1 ∧
    dlookup (scheduleAppointment uuid now cn stp sty d t e p (some cr)
        false st).2.1 uuid
      = some ⟨uuid, cn, stp, sty, d, t, e, p, "confirmed", now,
          "https://meet.google.com/demo-" ++ uuid.take 8⟩ ∧
    (scheduleAppointment uuid now cn stp sty d t e p (some cr) false
        st).1 = ⟨uuid, "scheduled"⟩ :=
  ⟨rfl, rfl, dlookup_dset_self st uuid _, rfl⟩

/-- C4 (bug evidence): with a generator configured whose call fails, the
turn delivers the EMPTY field map — `extract_metadata_with_llm` swallows
the provider error and returns an empty dict, so the regex-fallback
`except` branch of `MemoryService.extract_metadata` never runs — while
the fallback heuristic on the same utterance yields a non-empty map. -/
theorem extraction_failure_yields_empty_not_fallback :
    extractMetadata (some (fun _ => .fail))
        [("u", (⟨[], []⟩ : Conversation))] "u"
        "my name is john smith, i want a haircut with riya at 11 am tomorrow"
      = some ([], [("u", (⟨[], []⟩ : Conversation))]) ∧
    extractMetadataRegex
        "my name is john smith, i want a haircut with riya at 11 am tomorrow".data
      = some [("customer_name", "John"), ("service_type", "Haircut"),
              ("preferred_stylist", "Riya"), ("time", "11:00 AM"),
              ("date", "Tomorrow")] ∧
    ([("customer_name", "John"), ("service_type", "Haircut"),
      ("preferred_stylist", "Riya"), ("time", "11:00 AM"),
      ("date", "Tomorrow")] : Metadata) ≠ [] := by
  decide

/-- C7 counterexample: on the scenario utterance the fallback extractor
takes only the first token after the name indicator, so `customer_name`
is "John", not the claimed "John Smith", and the produced map is not the
claimed map. -/
theorem fallback_name_is_first_token_only :
    (extractMetadata none [("u", (⟨[], []⟩ : Conversation))] "u"
        "my name is john smith, i want a haircut with riya at 11 am tomorrow").map
        (fun r => dlookup r.1 "customer_name")
      = some (some "John") ∧
    (some "John" : Option String) ≠ some "John Smith" ∧
    (extractMetadata none [("u", (⟨[], []⟩ : Conversation))] "u"
        "my name is john smith, i want a haircut with riya at 11 am tomorrow").map
        Prod.fst
      ≠ some [("customer_name", "John Smith"), ("service_type", "Haircut"),
              ("preferred_stylist", "Riya"), ("time", "11:00 AM"),
              ("date", "Tomorrow")] := by
  decide

/-- C7 amended: with no generator available, the fallback extraction of
the scenario utterance produces exactly the map with customer_name
"John" (first token only), service_type "Haircut", preferred_stylist
"Riya", time "11:00 AM" and date "Tomorrow", and merges it into the
session. -/
theorem fallback_extraction_scenario :
    extractMetadata none [("u", (⟨[], []⟩ : Conversation))] "u"
        "my name is john smith, i want a haircut with riya at 11 am tomorrow"
      = some ([("customer_name", "John"), ("service_type", "Haircut"),
               ("preferred_stylist", "Riya"), ("time", "11:00 AM"),
               ("date", "Tomorrow")],
              [("u", ⟨[], [("customer_name", "John"),
                ("service_type", "Haircut"), ("preferred_stylist", "Riya"),
                ("time", "11:00 AM"), ("date", "Tomorrow")]⟩)]) := by
  decide

/-- C8 counterexample: on the spoken-form input the fallback email value
is "4236@gmail.com" — the "at the rate" substitution leaves spaces around
the inserted at-sign, so the local part "shresth" is never joined — not
the claimed "shresth4236@gmail.com". -/
theorem email_repair_differs_from_claim :
    (extractMetadataRegex "shresth at the rate 4236 at gmail dot com".data).bind
        (fun m => dlookup m "email")
      = some "4236@gmail.com" ∧
    (some "4236@gmail.com" : Option String) ≠ some "shresth4236@gmail.com" := by
  decide

/-- C8 amended: the spoken tokens are substituted (yielding the
intermediate text with spaces around the first at-sign) and re-matched,
and the fallback extraction maps the input to the email value
"4236@gmail.com". -/
theorem email_repair_actual :
    emailSubstitutions (isolateEmailPart emailKeywords
        (pyLower "shresth at the rate 4236 at gmail dot com".data))
      = "shresth @ 4236@gmail.com".data ∧
    extractMetadataRegex "shresth at the rate 4236 at gmail dot com".data
      = some [("email", "4236@gmail.com")] := by
  decide

/-- C9 (bug evidence): "11am" and "11 AM" normalize to "11:00 AM", but
"11:00am" is captured by the first time pattern at its minute digits,
producing "00:00 AM" instead of the claimed "11:00 AM" (the dedicated
`H:00` pattern is listed after the pattern that shadows it). -/
theorem time_normalization_shadowed :
    extractTime (pyLower "11am".data) = some "11:00 AM".data ∧
    extractTime (pyLower "11 AM".data) = some "11:00 AM".data ∧
    extractTime (pyLower "11:00am".data) = some "00:00 AM".data ∧
    extractMetadataRegex "11:00am".data = some [("time", "00:00 AM")] ∧
    ("00:00 AM" : String) ≠ "11:00 AM" := by
  decide
